import Mathlib

/-!
Verification development for the Arctic Spas status-caching API client
(spaClient.ts). The TypeScript class SpaClient is embedded shallowly:

* the transport method requestJson is a pure function from the observed
  network behaviour (response or no response within the timeout) to an
  Except value, paired with the list of outbound requests it issues;
* the status cache and coalescer (fields lastStatus, lastFetchTime and
  inFlight, manipulated only by getStatus) is a state machine driven by
  two kinds of events: a getStatus invocation at some instant, and the
  settlement of the in-flight fetch with some outcome.  The JavaScript
  event loop is single threaded, so a run of the client is a sequence of
  these atomic steps.
-/

namespace ArcticSpa

/-- The SpaStatus interface: a flat record of optional fields.  TS numbers
are modelled as Int (no claim depends on fractional values). -/
structure SpaStatus where
  connected : Bool
  temperatureF : Option Int := none
  setpointF : Option Int := none
  lights : Option String := none
  pump1 : Option String := none
  pump2 : Option String := none
  pump3 : Option String := none
  pump4 : Option String := none
  pump5 : Option String := none
  blower1 : Option String := none
  blower2 : Option String := none
  easymode : Option String := none
  sds : Option String := none
  yess : Option String := none
  fogger : Option String := none
  ph : Option Int := none
  ph_status : Option String := none
  orp : Option Int := none
  orp_status : Option String := none
  spaboyPh : Option Int := none
  spaboyOrp : Option Int := none
deriving DecidableEq

/-- The value the generic call requestJson(GET, /status) can actually
resolve with at runtime: a parsed JSON object, the raw body text of a
non-JSON success response, or undefined for a 204 response. -/
inductive StatusValue where
  | obj (s : SpaStatus)
  | str (s : String)
  | undef
deriving DecidableEq

/-- JavaScript truthiness of such a value: objects are truthy, a string is
truthy iff nonempty, undefined is falsy.  This is what the check
if (this.lastStatus && ...) evaluates on the cached value. -/
def StatusValue.truthy : StatusValue → Bool
  | .obj _ => true
  | .str s => !(s == "")
  | .undef => false

/-- Request bodies used by the client; render mirrors JSON.stringify on
the object literals appearing in the source. -/
inductive Body where
  | state (s : String)
  | setpoint (n : Int)
deriving DecidableEq

def Body.render : Body → String
  | .state s => "\x7b\"state\":\"" ++ s ++ "\"\x7d"
  | .setpoint n => "\x7b\"setpointF\":" ++ toString n ++ "\x7d"

/-- One outbound HTTP request as issued by requestJson (the fixed base
URL, API key header and content-type header are attached to every
request and carry no per-call information). -/
structure Request where
  method : String
  path : String
  body : Option Body
deriving DecidableEq

def baseUrl : String := "https://api.myarcticspa.com/v2/spa"

/-- The observable surface of a fetch Response consumed by requestJson:
status code, status text, content-type header (none when absent), the
outcome of res.text() (which may throw) and of res.json() (which may
throw on unparseable bodies). -/
structure HttpResponse where
  status : Nat
  statusText : String
  contentType : Option String
  textResult : Except Unit String
  jsonResult : Except Unit SpaStatus

/-- The whitespace characters stripped by String.prototype.trim. -/
def isJsWhitespace (ch : Char) : Bool :=
  ch == ' ' || ch == '\t' || ch == '\n' || ch == '\r'

/-- JavaScript String.prototype.trim: strip leading and trailing
whitespace. -/
def jsTrim (s : String) : String :=
  ⟨((s.data.dropWhile isJsWhitespace).reverse.dropWhile
      isJsWhitespace).reverse⟩

/-- safeReadText: await res.text(), trim, and fall back to the empty
string when reading the body throws. -/
def safeReadText (r : HttpResponse) : String :=
  match r.textResult with
  | .ok t => jsTrim t
  | .error _ => ""

def startsWithChars : List Char → List Char → Bool
  | _, [] => true
  | [], _ :: _ => false
  | x :: xs, y :: ys => x == y && startsWithChars xs ys

def containsChars : List Char → List Char → Bool
  | [], sub => sub.isEmpty
  | x :: rest, sub => startsWithChars (x :: rest) sub || containsChars rest sub

/-- JavaScript String.prototype.includes, used on the content-type. -/
def strIncludes (s sub : String) : Bool :=
  containsChars s.data sub.data

/-- The distinct failure conditions requestJson can surface: the Error
thrown on a non-success HTTP status (carrying method, path, status code,
status text and best-effort body text), the AbortError produced when the
timeout fires, and the SyntaxError from res.json() on an unparseable
JSON body. -/
inductive RequestError where
  | api (method : String) (path : String) (status : Nat)
      (statusText : String) (bodyText : String)
  | timeoutAbort
  | jsonParseError
deriving DecidableEq

/-- The message of the Error thrown on a non-success status, following the
template literal in the source. -/
def apiErrorMessage (method path : String) (status : Nat)
    (statusText bodyText : String) : String :=
  "Arctic Spas API " ++ method ++ " " ++ path ++ " failed: "
    ++ toString status ++ " " ++ statusText
    ++ (if bodyText == "" then "" else " - " ++ bodyText)

def RequestError.message : RequestError → String
  | .api m p s st bt => apiErrorMessage m p s st bt
  | .timeoutAbort => "This operation was aborted"
  | .jsonParseError => "Unexpected token in JSON"

/-- What a successful requestJson call resolves with: undefined for a 204
response, the raw body text for a non-JSON success response, or the
parsed JSON value. -/
inductive ReqSuccess where
  | empty
  | rawText (s : String)
  | json (j : SpaStatus)
deriving DecidableEq

/-- Network behaviour observed by one requestJson call: either a complete
response arrives after elapsedMs milliseconds, or no complete response
ever arrives. -/
inductive NetBehavior where
  | responds (elapsedMs : Nat) (r : HttpResponse)
  | noResponse

/-- The client configuration fixed at construction. -/
structure SpaClient where
  apiKey : String
  minIntervalMs : Int
  timeoutMs : Nat

/-- Constructor defaults: minIntervalMs = 0, timeoutMs = 5000. -/
def defaultMinIntervalMs : Int := 0

def defaultTimeoutMs : Nat := 5000

/-- The constructor applied with only an API key, taking both defaults. -/
def mkSpaClient (apiKey : String) : SpaClient :=
  ⟨apiKey, defaultMinIntervalMs, defaultTimeoutMs⟩

/-- fetch exposes res.ok as status in the inclusive range 200..299. -/
def resOk (status : Nat) : Bool :=
  decide (200 ≤ status) && decide (status < 300)

/-- Processing of a response that arrived in time, mirroring the body of
requestJson after the fetch resolves: non-success statuses throw the API
error built from safeReadText; 204 returns undefined without touching the
body; a non-JSON content type returns the raw text; otherwise res.json()
is awaited and its parse failure propagates. -/
def requestJsonCore (method path : String) (r : HttpResponse) :
    Except RequestError ReqSuccess :=
  if resOk r.status then
    if r.status == 204 then
      .ok .empty
    else if strIncludes (r.contentType.getD "") "application/json" then
      match r.jsonResult with
      | .ok j => .ok (.json j)
      | .error _ => .error .jsonParseError
    else
      .ok (.rawText (safeReadText r))
  else
    .error (.api method path r.status r.statusText (safeReadText r))

/-- requestJson: issues exactly one request; if no complete response
arrives before the timeout fires the call is aborted, otherwise the
response is processed.  The AbortController timer is started before the
fetch and cleared in a finally block, so the timeout applies uniformly. -/
def requestJson (c : SpaClient) (method path : String) (body : Option Body)
    (net : NetBehavior) : Except RequestError ReqSuccess × List Request :=
  (match net with
    | .noResponse => .error .timeoutAbort
    | .responds elapsed r =>
      if elapsed < c.timeoutMs then requestJsonCore method path r
      else .error .timeoutAbort,
   [⟨method, path, body⟩])

/-! ## The status cache / coalescer

The mutable fields of the class: lastStatus (initially null; later
assigned whatever value the fetch resolved with, including undefined),
lastFetchTime (initially 0) and inFlight (a promise or null).  The
pending promise is represented by a numeric ticket; nextId generates
fresh tickets. -/

structure CacheState where
  lastStatus : Option StatusValue
  lastFetchTime : Int
  inFlight : Option Nat
  nextId : Nat
deriving DecidableEq

/-- The field initialisers of the class. -/
def initialCache : CacheState :=
  ⟨none, 0, none, 0⟩

/-- Outcome with which the in-flight fetch settles: the value the inner
async function returns, or the error it throws. -/
inductive FetchOutcome where
  | success (v : StatusValue)
  | failure (e : RequestError)
deriving DecidableEq

/-- What one getStatus invocation does synchronously: return the cached
value at once, or suspend awaiting the fetch with the given ticket
(either joining it or having just started it). -/
inductive CallResult where
  | cached (v : StatusValue)
  | awaiting (fid : Nat)
deriving DecidableEq

/-- The single GET issued by a status fetch. -/
def statusRequest : Request :=
  ⟨"GET", "/status", none⟩

/-- The freshness test of getStatus: if (this.lastStatus && now -
this.lastFetchTime < this.minIntervalMs).  JavaScript && first tests
truthiness of the cached value. -/
def freshB (c : SpaClient) (st : CacheState) (now : Int) : Bool :=
  match st.lastStatus with
  | some v => v.truthy && decide (now - st.lastFetchTime < c.minIntervalMs)
  | none => false

/-- The state change performed synchronously when getStatus assigns a
new promise to this.inFlight: the fresh ticket is installed. -/
def startFetch (st : CacheState) : CacheState :=
  { st with inFlight := some st.nextId, nextId := st.nextId + 1 }

/-- Steps 2 and 3 of getStatus: share an in-flight request when one
exists, otherwise start a new request (setting inFlight) and share it.
Starting the request issues the single GET /status. -/
def startOrJoin (st : CacheState) : CacheState × CallResult × List Request :=
  match st.inFlight with
  | some fid => (st, .awaiting fid, [])
  | none => (startFetch st, .awaiting st.nextId, [statusRequest])

/-- The synchronous prefix of getStatus at instant now: the freshness
fast path, then the in-flight check, then starting a new fetch. -/
def getStatusStep (c : SpaClient) (st : CacheState) (now : Int) :
    CacheState × CallResult × List Request :=
  match st.lastStatus with
  | some v =>
    if v.truthy && decide (now - st.lastFetchTime < c.minIntervalMs) then
      (st, .cached v, [])
    else startOrJoin st
  | none => startOrJoin st

/-- Settlement of the in-flight fetch at instant now.  On success the
inner async function assigns lastStatus and lastFetchTime and returns the
value; in both cases the finally block clears inFlight before the shared
promise settles, so the resolution (ticket, outcome) is delivered to the
waiters only in the post state.  No step issues a retry request. -/
def settleStep (st : CacheState) (now : Int) (out : FetchOutcome) :
    CacheState × Option (Nat × FetchOutcome) × List Request :=
  match st.inFlight with
  | none => (st, none, [])
  | some fid =>
    match out with
    | .success v =>
      ({ st with lastStatus := some v, lastFetchTime := now,
                 inFlight := none },
       some (fid, out), [])
    | .failure _ =>
      ({ st with inFlight := none }, some (fid, out), [])

/-- Conversion from what requestJson resolves or rejects with to the
settlement outcome of the status fetch: data = await requestJson(GET,
/status) is undefined, a raw string, or the parsed object. -/
def fetchOutcomeOf : Except RequestError ReqSuccess → FetchOutcome
  | .ok .empty => .success .undef
  | .ok (.rawText s) => .success (.str s)
  | .ok (.json j) => .success (.obj j)
  | .error e => .failure e

/-- An atomic step of the event loop touching the client: a getStatus
invocation, or the settlement of the in-flight fetch. -/
inductive Event where
  | call (now : Int)
  | settle (now : Int) (out : FetchOutcome)

/-- Cumulative observations of a run: final state, the synchronous result
of each call event in order, the resolutions delivered to waiters, and
every outbound request issued. -/
structure RunResult where
  state : CacheState
  callResults : List CallResult
  resolutions : List (Nat × FetchOutcome)
  requests : List Request
deriving DecidableEq

/-- Run a sequence of events from a state. -/
def run (c : SpaClient) (st : CacheState) : List Event → RunResult
  | [] => ⟨st, [], [], []⟩
  | .call t :: evs =>
    let s := getStatusStep c st t
    let rest := run c s.1 evs
    ⟨rest.state, s.2.1 :: rest.callResults, rest.resolutions,
     s.2.2 ++ rest.requests⟩
  | .settle t out :: evs =>
    let s := settleStep st t out
    let rest := run c s.1 evs
    ⟨rest.state, rest.callResults, s.2.1.toList ++ rest.resolutions,
     s.2.2 ++ rest.requests⟩

/-- The value or error a caller ends up receiving: an immediately served
cached value, or the outcome of the fetch whose ticket it awaits, looked
up among the delivered resolutions. -/
def deliver (resolutions : List (Nat × FetchOutcome)) :
    CallResult → Option FetchOutcome
  | .cached v => some (.success v)
  | .awaiting fid =>
    (resolutions.find? (fun p => p.1 == fid)).map Prod.snd

/-! ## Write operations

Each write method awaits a single requestJson PUT and resolves with
undefined.  None of their bodies mentions lastStatus, lastFetchTime or
inFlight, so the cache state is passed through untouched; the embeddings
take and return it explicitly to make that frame provable. -/

/-- The pump selector union type: 1 | 2 | 3 | 4 | 5 | all. -/
inductive PumpSel where
  | p1 | p2 | p3 | p4 | p5 | all
deriving DecidableEq

def PumpSel.toStr : PumpSel → String
  | .p1 => "1"
  | .p2 => "2"
  | .p3 => "3"
  | .p4 => "4"
  | .p5 => "5"
  | .all => "all"

/-- The pump state union type: off | on | low | high. -/
inductive PumpState where
  | off | on | low | high
deriving DecidableEq

def PumpState.toStr : PumpState → String
  | .off => "off"
  | .on => "on"
  | .low => "low"
  | .high => "high"

/-- OnOffState: on | off. -/
inductive OnOff where
  | on | off
deriving DecidableEq

def OnOff.toStr : OnOff → String
  | .on => "on"
  | .off => "off"

/-- The blower selector union type: 1 | 2 | all. -/
inductive BlowerSel where
  | b1 | b2 | all
deriving DecidableEq

def BlowerSel.toStr : BlowerSel → String
  | .b1 => "1"
  | .b2 => "2"
  | .all => "all"

/-- The toggle path union type: easymode | sds | yess | fogger. -/
inductive TogglePath where
  | easymode | sds | yess | fogger
deriving DecidableEq

def TogglePath.toStr : TogglePath → String
  | .easymode => "easymode"
  | .sds => "sds"
  | .yess => "yess"
  | .fogger => "fogger"

/-- The common result shape of a write: untouched cache state, the void
promise outcome, the requests issued. -/
def writeVia (c : SpaClient) (path : String) (body : Option Body)
    (st : CacheState) (net : NetBehavior) :
    CacheState × Except RequestError Unit × List Request :=
  let r := requestJson c "PUT" path body net
  (st, r.1.map (fun _ => ()), r.2)

def setTemperatureF (c : SpaClient) (setpointF : Int) (st : CacheState)
    (net : NetBehavior) :
    CacheState × Except RequestError Unit × List Request :=
  writeVia c "/temperature" (some (.setpoint setpointF)) st net

def setLights (c : SpaClient) (onFlag : Bool) (st : CacheState)
    (net : NetBehavior) :
    CacheState × Except RequestError Unit × List Request :=
  writeVia c "/lights" (some (.state (if onFlag then "on" else "off"))) st net

def setPump (c : SpaClient) (pump : PumpSel) (state : PumpState)
    (st : CacheState) (net : NetBehavior) :
    CacheState × Except RequestError Unit × List Request :=
  writeVia c ("/pumps/" ++ pump.toStr) (some (.state state.toStr)) st net

def setBlower (c : SpaClient) (blower : BlowerSel) (state : OnOff)
    (st : CacheState) (net : NetBehavior) :
    CacheState × Except RequestError Unit × List Request :=
  writeVia c ("/blowers/" ++ blower.toStr) (some (.state state.toStr)) st net

def setToggle (c : SpaClient) (path : TogglePath) (onFlag : Bool)
    (st : CacheState) (net : NetBehavior) :
    CacheState × Except RequestError Unit × List Request :=
  writeVia c ("/" ++ path.toStr)
    (some (.state (if onFlag then "on" else "off"))) st net

def boost (c : SpaClient) (st : CacheState) (net : NetBehavior) :
    CacheState × Except RequestError Unit × List Request :=
  writeVia c "/boost" none st net

/-- A concrete status payload used to instantiate theorems. -/
def sampleStatus : SpaStatus :=
  { connected := true, temperatureF := some 100 }

/-! ## Transport theorems -/

/-- Claim C7: on a non-success HTTP status the transport call fails with
the API error carrying the HTTP status code, the status text and the
best-effort body text (the trimmed result of res.text when reading
succeeds); when reading the response body itself fails, safeReadText
yields the empty string and the original HTTP error is still raised, not
masked by the body-read failure. -/
theorem requestJson_apiError (c : SpaClient) (method path : String)
    (body : Option Body) (elapsed : Nat) (r : HttpResponse)
    (hTime : elapsed < c.timeoutMs)
    (hBad : resOk r.status = false) :
    (requestJson c method path body (.responds elapsed r)).1
      = .error (.api method path r.status r.statusText (safeReadText r))
    ∧ (∀ t, r.textResult = .ok t → safeReadText r = jsTrim t)
    ∧ (r.textResult = .error () →
        (requestJson c method path body (.responds elapsed r)).1
          = .error (.api method path r.status r.statusText "")) := by
  refine ⟨?_, ?_, ?_⟩
  · simp [requestJson, requestJsonCore, hTime, hBad]
  · intro t ht
    simp [safeReadText, ht]
  · intro ht
    simp [requestJson, requestJsonCore, hTime, hBad, safeReadText, ht]

theorem requestJson_apiError_witness :
    ((0 : Nat) < (mkSpaClient "key").timeoutMs ∧ resOk 500 = false)
    ∧ (requestJson (mkSpaClient "key") "GET" "/status" none
        (.responds 0 ⟨500, "Server Error", none, .error (), .error ()⟩)).1
      = .error (.api "GET" "/status" 500 "Server Error" "") :=
  ⟨⟨by decide, by decide⟩,
   ((requestJson_apiError (mkSpaClient "key") "GET" "/status" none 0
      ⟨500, "Server Error", none, .error (), .error ()⟩
      (by decide) (by decide)).2.2 rfl)⟩

/-- Claim C8: when no complete response arrives within the configured
timeout (default 5000 ms from the constructor), the call is aborted and
fails with the timeout error, which is a different error condition from
the API error raised on non-success statuses; the call issues exactly
its one request and the coalescer issues no retry on a failure
settlement. -/
theorem requestJson_timeout (c : SpaClient) (method path : String)
    (body : Option Body) (elapsed : Nat) (r : HttpResponse)
    (hLate : c.timeoutMs ≤ elapsed) :
    (requestJson c method path body (.responds elapsed r)).1
      = .error .timeoutAbort
    ∧ (requestJson c method path body .noResponse).1 = .error .timeoutAbort
    ∧ (∀ m p s sx bt, RequestError.timeoutAbort ≠ .api m p s sx bt)
    ∧ (requestJson c method path body (.responds elapsed r)).2
        = [⟨method, path, body⟩]
    ∧ (∀ st t, (settleStep st t (.failure .timeoutAbort)).2.2 = [])
    ∧ (mkSpaClient c.apiKey).timeoutMs = 5000 := by
  refine ⟨?_, rfl, ?_, rfl, ?_, rfl⟩
  · simp [requestJson, Nat.not_lt_of_le hLate]
  · intro m p s sx bt h
    exact RequestError.noConfusion h
  · intro st t
    cases h : st.inFlight <;> simp [settleStep, h]

theorem requestJson_timeout_witness :
    (mkSpaClient "key").timeoutMs ≤ 5000
    ∧ (requestJson (mkSpaClient "key") "GET" "/status" none
        (.responds 5000 ⟨200, "OK", none, .ok "x", .ok sampleStatus⟩)).1
      = .error .timeoutAbort :=
  ⟨by decide,
   (requestJson_timeout (mkSpaClient "key") "GET" "/status" none 5000
      ⟨200, "OK", none, .ok "x", .ok sampleStatus⟩ (by decide)).1⟩

/-- Claim C9: a response with a success status and no body (HTTP 204)
yields the empty result without attempting a JSON parse (the outcome of
res.json is never consulted, so the result is empty even when the parse
would fail); a success response whose content type does not include
application/json yields the raw trimmed body text as the result rather
than failing. -/
theorem requestJson_boundary (c : SpaClient) (method path : String)
    (body : Option Body) (elapsed : Nat) (r : HttpResponse)
    (hTime : elapsed < c.timeoutMs) :
    (r.status = 204 →
      (requestJson c method path body (.responds elapsed r)).1 = .ok .empty)
    ∧ (resOk r.status = true → ¬ r.status = 204 →
        strIncludes (r.contentType.getD "") "application/json" = false →
        (requestJson c method path body (.responds elapsed r)).1
          = .ok (.rawText (safeReadText r))) := by
  constructor
  · intro h204
    simp [requestJson, requestJsonCore, hTime, h204, resOk]
  · intro hOk hNot204 hCT
    simp [requestJson, requestJsonCore, hTime, hOk, hNot204, hCT]

theorem requestJson_boundary_witness :
    ((0 : Nat) < (mkSpaClient "key").timeoutMs
      ∧ ((204 : Nat) = 204
          ∧ resOk 200 = true ∧ ¬ (200 : Nat) = 204
          ∧ strIncludes ((some "text/plain").getD "") "application/json"
              = false))
    ∧ (requestJson (mkSpaClient "key") "GET" "/status" none
        (.responds 0 ⟨204, "No Content", none, .error (), .error ()⟩)).1
      = .ok .empty
    ∧ (requestJson (mkSpaClient "key") "GET" "/status" none
        (.responds 0 ⟨200, "OK", some "text/plain", .ok " hi ",
          .error ()⟩)).1
      = .ok (.rawText "hi") :=
  ⟨⟨by decide, rfl, by decide, by decide, by decide⟩,
   (requestJson_boundary (mkSpaClient "key") "GET" "/status" none 0
      ⟨204, "No Content", none, .error (), .error ()⟩ (by decide)).1 rfl,
   by
    have h := (requestJson_boundary (mkSpaClient "key") "GET" "/status" none 0
      ⟨200, "OK", some "text/plain", .ok " hi ", .error ()⟩ (by decide)).2
      (by decide) (by decide) (by decide)
    simpa [safeReadText] using h⟩

/-! ## Cache and write theorems -/

/-- Claim C6: every write operation issues exactly one PUT to its
documented path with its documented body and leaves the whole cache state
(lastStatus, lastFetchTime, inFlight) unchanged, with no follow-up read;
in particular setPump 1 low issues exactly one PUT to /pumps/1 whose body
serialises to the JSON object with the single field state set to low. -/
theorem writes_passthrough (c : SpaClient) (st : CacheState)
    (net : NetBehavior) :
    (∀ pump state, (setPump c pump state st net).1 = st
      ∧ (setPump c pump state st net).2.2
          = [⟨"PUT", "/pumps/" ++ pump.toStr, some (.state state.toStr)⟩])
    ∧ (∀ n, (setTemperatureF c n st net).1 = st
      ∧ (setTemperatureF c n st net).2.2
          = [⟨"PUT", "/temperature", some (.setpoint n)⟩])
    ∧ (∀ b, (setLights c b st net).1 = st
      ∧ (setLights c b st net).2.2
          = [⟨"PUT", "/lights", some (.state (if b then "on" else "off"))⟩])
    ∧ (∀ blower state, (setBlower c blower state st net).1 = st
      ∧ (setBlower c blower state st net).2.2
          = [⟨"PUT", "/blowers/" ++ blower.toStr, some (.state state.toStr)⟩])
    ∧ (∀ p b, (setToggle c p b st net).1 = st
      ∧ (setToggle c p b st net).2.2
          = [⟨"PUT", "/" ++ p.toStr, some (.state (if b then "on" else "off"))⟩])
    ∧ ((boost c st net).1 = st ∧ (boost c st net).2.2 = [⟨"PUT", "/boost", none⟩])
    ∧ (setPump c .p1 .low st net).2.2
        = [⟨"PUT", "/pumps/1", some (.state "low")⟩]
    ∧ (Body.state "low").render = "\x7b\"state\":\"low\"\x7d" := by
  refine ⟨fun pump state => ⟨rfl, rfl⟩, fun n => ⟨rfl, rfl⟩,
    fun b => ⟨rfl, rfl⟩, fun blower state => ⟨rfl, rfl⟩,
    fun p b => ⟨rfl, rfl⟩, ⟨rfl, rfl⟩, rfl, rfl⟩

/-- Claim C5: lastStatus and lastFetchTime are written only by the
success settlement of a status fetch, and then both in the same atomic
step of the event loop (the two assignments are separated by no await,
so no interleaved observer exists between them); a getStatus call step
never writes them, a failure settlement never writes them, and no write
operation touches the cache state at all. -/
theorem cache_update_only_on_success (c : SpaClient) (st : CacheState) :
    (∀ t, (getStatusStep c st t).1.lastStatus = st.lastStatus
      ∧ (getStatusStep c st t).1.lastFetchTime = st.lastFetchTime)
    ∧ (∀ t out,
        ((settleStep st t out).1.lastStatus = st.lastStatus
          ∧ (settleStep st t out).1.lastFetchTime = st.lastFetchTime)
        ∨ (∃ v, out = .success v ∧ st.inFlight.isSome
            ∧ (settleStep st t out).1.lastStatus = some v
            ∧ (settleStep st t out).1.lastFetchTime = t))
    ∧ (∀ net, (boost c st net).1 = st)
    ∧ (∀ n net, (setTemperatureF c n st net).1 = st)
    ∧ (∀ b net, (setLights c b st net).1 = st)
    ∧ (∀ pump state net, (setPump c pump state st net).1 = st)
    ∧ (∀ blower state net, (setBlower c blower state st net).1 = st)
    ∧ (∀ p b net, (setToggle c p b st net).1 = st) := by
  refine ⟨?_, ?_, fun _ => rfl, fun _ _ => rfl, fun _ _ => rfl,
    fun _ _ _ => rfl, fun _ _ _ => rfl, fun _ _ _ => rfl⟩
  · intro t
    unfold getStatusStep startOrJoin
    cases h : st.lastStatus with
    | none => cases hf : st.inFlight <;> simp [h, hf, startFetch]
    | some v =>
      cases hb : (v.truthy && decide (t - st.lastFetchTime
          < c.minIntervalMs)) <;>
        cases hf : st.inFlight <;> simp [h, hf, hb, startFetch]
  · intro t out
    cases hf : st.inFlight with
    | none => left; simp [settleStep, hf]
    | some fid =>
      cases out with
      | success v =>
        right
        exact ⟨v, rfl, by simp [hf], by simp [settleStep, hf],
          by simp [settleStep, hf]⟩
      | failure e => left; simp [settleStep, hf]

lemma freshB_none (c : SpaClient) (st : CacheState) (t : Int)
    (hl : st.lastStatus = none) : freshB c st t = false := by
  simp [freshB, hl]

lemma freshB_some (c : SpaClient) (st : CacheState) (t : Int)
    (v : StatusValue) (hl : st.lastStatus = some v) :
    freshB c st t
      = (v.truthy && decide (t - st.lastFetchTime < c.minIntervalMs)) := by
  simp [freshB, hl]

/-- When the freshness fast path does not apply, getStatus proceeds to
the in-flight check and the fetch start. -/
lemma getStatusStep_of_not_fresh (c : SpaClient) (st : CacheState) (t : Int)
    (h : freshB c st t = false) : getStatusStep c st t = startOrJoin st := by
  unfold getStatusStep
  cases hl : st.lastStatus with
  | none => rfl
  | some v =>
    rw [freshB_some c st t v hl] at h
    simp [h]

/-- A cache that is stale at t0 is still stale at any later instant,
because lastFetchTime does not move while no settlement occurs. -/
lemma freshB_mono (c : SpaClient) (st : CacheState) (t0 t : Int)
    (h : freshB c st t0 = false) (hle : t0 ≤ t) : freshB c st t = false := by
  cases hl : st.lastStatus with
  | none => exact freshB_none c st t hl
  | some v =>
    rw [freshB_some c st t0 v hl] at h
    rw [freshB_some c st t v hl]
    cases hv : v.truthy with
    | false => simp
    | true =>
      rw [hv] at h
      simp only [Bool.true_and, decide_eq_false_iff_not] at h ⊢
      omega

/-- Running concatenated event lists concatenates the observations. -/
lemma run_append (c : SpaClient) (st : CacheState) (evs1 evs2 : List Event) :
    run c st (evs1 ++ evs2)
      = ⟨(run c (run c st evs1).state evs2).state,
         (run c st evs1).callResults
           ++ (run c (run c st evs1).state evs2).callResults,
         (run c st evs1).resolutions
           ++ (run c (run c st evs1).state evs2).resolutions,
         (run c st evs1).requests
           ++ (run c (run c st evs1).state evs2).requests⟩ := by
  induction evs1 generalizing st with
  | nil => simp [run]
  | cons e evs ih =>
    cases e with
    | call t => simp [run, ih]
    | settle t out => simp [run, ih]

/-- While a fetch with ticket fid is in flight and the cache never looks
fresh, a sequence of getStatus calls leaves the state untouched, issues
no request, and every caller joins the same ticket. -/
lemma run_calls_in_flight (c : SpaClient) (st : CacheState) (fid : Nat)
    (ts : List Int) (hIn : st.inFlight = some fid)
    (hNF : ∀ t ∈ ts, freshB c st t = false) :
    run c st (ts.map .call)
      = ⟨st, List.replicate ts.length (.awaiting fid), [], []⟩ := by
  induction ts with
  | nil => simp [run]
  | cons t ts ih =>
    have hstep : getStatusStep c st t = (st, .awaiting fid, []) := by
      rw [getStatusStep_of_not_fresh c st t (hNF t (by simp))]
      simp [startOrJoin, hIn]
    have ih2 := ih (fun u hu => hNF u (by simp [hu]))
    simp [run, hstep, ih2, List.replicate_succ]

/-- Claim C1: single-flight coalescing.  From an idle state whose cache
is not fresh at t0, a getStatus call at t0 starts the one fetch (ticket
fid equal to the nextId of the starting state); any number of further
getStatus calls arriving while that fetch is in flight (at instants not
before t0) issue no second outbound GET and all join the same ticket, so
when the fetch settles all of them receive that same outcome (one shared
value or one shared error); throughout the episode the single inFlight
slot holds exactly that ticket, and it is empty again after
settlement. -/
theorem getStatus_single_flight (c : SpaClient) (st : CacheState)
    (t0 : Int) (ts : List Int) (tEnd : Int) (out : FetchOutcome)
    (hIdle : st.inFlight = none)
    (hStale : freshB c st t0 = false)
    (hMono : ∀ t ∈ ts, t0 ≤ t) :
    (run c st (.call t0 :: (ts.map .call ++ [.settle tEnd out]))).requests
      = [statusRequest]
    ∧ (run c st (.call t0 :: (ts.map .call
        ++ [.settle tEnd out]))).callResults
      = List.replicate (ts.length + 1) (.awaiting st.nextId)
    ∧ (run c st (.call t0 :: (ts.map .call
        ++ [.settle tEnd out]))).resolutions
      = [(st.nextId, out)]
    ∧ (∀ res ∈ (run c st (.call t0 :: (ts.map .call
          ++ [.settle tEnd out]))).callResults,
        deliver (run c st (.call t0 :: (ts.map .call
          ++ [.settle tEnd out]))).resolutions res = some out)
    ∧ (run c st (.call t0 :: (ts.map .call
        ++ [.settle tEnd out]))).state.inFlight = none
    ∧ (run c st (.call t0 :: ts.map .call)).state.inFlight
        = some st.nextId := by
  have hstep0 : getStatusStep c st t0
      = (startFetch st, .awaiting st.nextId, [statusRequest]) := by
    rw [getStatusStep_of_not_fresh c st t0 hStale]
    simp [startOrJoin, hIdle]
  have hNF1 : ∀ t ∈ ts, freshB c (startFetch st) t = false := by
    intro t ht
    exact freshB_mono c _ t0 t hStale (hMono t ht)
  have hcalls := run_calls_in_flight c (startFetch st)
    st.nextId ts rfl hNF1
  have hsettle : run c (startFetch st) [.settle tEnd out]
      = ⟨(settleStep (startFetch st) tEnd out).1,
         [], [(st.nextId, out)], []⟩ := by
    cases out <;> simp [run, settleStep, startFetch]
  have hclear : (settleStep (startFetch st) tEnd out).1.inFlight
      = none := by
    cases out <;> simp [settleStep, startFetch]
  have hreq : (settleStep (startFetch st) tEnd out).2.2 = [] := by
    cases out <;> simp [settleStep, startFetch]
  have hres1 : (settleStep (startFetch st) tEnd out).2.1
      = some (st.nextId, out) := by
    cases out <;> simp [settleStep, startFetch]
  have hrun : run c st (.call t0 :: (ts.map .call ++ [.settle tEnd out]))
      = ⟨(settleStep (startFetch st) tEnd out).1,
         .awaiting st.nextId
           :: List.replicate ts.length (.awaiting st.nextId),
         [(st.nextId, out)], [statusRequest]⟩ := by
    simp [run, hstep0, run_append, hcalls, hsettle, hreq, hres1]
  refine ⟨?_, ?_, ?_, ?_, ?_, ?_⟩
  · rw [hrun]
  · rw [hrun]
    simp [List.replicate_succ]
  · rw [hrun]
  · rw [hrun]
    intro res hres
    have hres2 : res = .awaiting st.nextId := by
      rcases List.mem_cons.mp hres with h1 | h1
      · exact h1
      · exact List.eq_of_mem_replicate h1
    rw [hres2]
    simp [deliver]
  · rw [hrun]
    exact hclear
  · have hpre : run c st (.call t0 :: ts.map .call)
        = ⟨startFetch st,
           .awaiting st.nextId
             :: List.replicate ts.length (.awaiting st.nextId),
           [], [statusRequest]⟩ := by
      simp [run, hstep0, hcalls]
    rw [hpre]
    rfl

theorem getStatus_single_flight_witness :
    (initialCache.inFlight = none
      ∧ freshB (mkSpaClient "key") initialCache 0 = false
      ∧ ∀ t ∈ ([1, 2] : List Int), (0 : Int) ≤ t)
    ∧ (run (mkSpaClient "key") initialCache
        ([.call 0] ++ ([1, 2] : List Int).map .call
          ++ [.settle 3 (.success (.obj sampleStatus))])).requests
      = [statusRequest]
    ∧ (run (mkSpaClient "key") initialCache
        ([.call 0] ++ ([1, 2] : List Int).map .call
          ++ [.settle 3 (.success (.obj sampleStatus))])).resolutions
      = [(0, .success (.obj sampleStatus))]
    ∧ (run (mkSpaClient "key") initialCache
        ([.call 0] ++ ([1, 2] : List Int).map .call
          ++ [.settle 3 (.success (.obj sampleStatus))])).state.inFlight
      = none := by
  have h := getStatus_single_flight (mkSpaClient "key") initialCache 0
    [1, 2] 3 (.success (.obj sampleStatus)) rfl rfl (by decide)
  exact ⟨⟨rfl, rfl, by decide⟩, h.1, h.2.2.1, h.2.2.2.2.1⟩

/-- With no fetch in flight, the cache fast path fires exactly when the
freshness test is true. -/
lemma getStatusStep_cached_iff_fresh (c : SpaClient) (st : CacheState)
    (t : Int) (hIdle : st.inFlight = none) :
    (∃ v, getStatusStep c st t = (st, .cached v, []))
      ↔ freshB c st t = true := by
  constructor
  · rintro ⟨w, hw⟩
    by_contra hn
    rw [Bool.not_eq_true] at hn
    rw [getStatusStep_of_not_fresh c st t hn] at hw
    have hso : startOrJoin st
        = (startFetch st, .awaiting st.nextId, [statusRequest]) := by
      simp [startOrJoin, hIdle]
    rw [hso] at hw
    simp at hw
  · intro hf
    cases hl : st.lastStatus with
    | none => rw [freshB_none c st t hl] at hf; cases hf
    | some v =>
      refine ⟨v, ?_⟩
      rw [freshB_some c st t v hl] at hf
      unfold getStatusStep
      rw [hl]
      simp [hf]

/-- The freshness test unpacked: a truthy cached value within the
interval. -/
lemma freshB_true_iff (c : SpaClient) (st : CacheState) (t : Int) :
    freshB c st t = true
      ↔ ∃ v, st.lastStatus = some v ∧ v.truthy = true
          ∧ t - st.lastFetchTime < c.minIntervalMs := by
  constructor
  · intro hf
    cases hl : st.lastStatus with
    | none => rw [freshB_none c st t hl] at hf; cases hf
    | some v =>
      rw [freshB_some c st t v hl] at hf
      simp only [Bool.and_eq_true, decide_eq_true_eq] at hf
      exact ⟨v, rfl, hf.1, hf.2⟩
  · rintro ⟨v, hl, hv, hlt⟩
    rw [freshB_some c st t v hl, hv]
    simp [hlt]

/-- Claim C2: with no fetch in flight, a getStatus call at instant t is
served from the cache immediately, with no outbound request and no state
change, precisely when a truthy cached value is present and t minus
lastFetchTime is below minIntervalMs; with minIntervalMs zero every such
call starts a new fetch; and in the concrete minIntervalMs = 5000 run, a
call at 0 fetches, a call at 1000 is served from cache with no extra
request, and a call at 6000 fetches again. -/
theorem getStatus_freshness (c : SpaClient) (st : CacheState) (t : Int)
    (hIdle : st.inFlight = none) (hMono : st.lastFetchTime ≤ t) :
    ((∃ v, getStatusStep c st t = (st, .cached v, []))
      ↔ (∃ v, st.lastStatus = some v ∧ v.truthy = true
          ∧ t - st.lastFetchTime < c.minIntervalMs))
    ∧ (c.minIntervalMs = 0 →
        (getStatusStep c st t).2.2 = [statusRequest]
        ∧ (getStatusStep c st t).1.inFlight = some st.nextId)
    ∧ (run ⟨"key", 5000, 5000⟩ initialCache
        [.call 0, .settle 0 (.success (.obj sampleStatus)),
         .call 1000, .call 6000]).callResults
      = [.awaiting 0, .cached (.obj sampleStatus), .awaiting 1]
    ∧ (run ⟨"key", 5000, 5000⟩ initialCache
        [.call 0, .settle 0 (.success (.obj sampleStatus)),
         .call 1000, .call 6000]).requests
      = [statusRequest, statusRequest] := by
  refine ⟨(getStatusStep_cached_iff_fresh c st t hIdle).trans
    (freshB_true_iff c st t), ?_, by decide, by decide⟩
  · intro h0
    have hnf : freshB c st t = false := by
      unfold freshB
      cases hl : st.lastStatus with
      | none => rfl
      | some v =>
        have : ¬ (t - st.lastFetchTime < c.minIntervalMs) := by omega
        simp [this]
    rw [getStatusStep_of_not_fresh c st t hnf]
    simp [startOrJoin, hIdle, startFetch]

theorem getStatus_freshness_witness :
    (initialCache.inFlight = none ∧ initialCache.lastFetchTime ≤ 0
      ∧ (mkSpaClient "key").minIntervalMs = 0)
    ∧ (getStatusStep (mkSpaClient "key") initialCache 0).2.2
        = [statusRequest]
    ∧ (getStatusStep (mkSpaClient "key") initialCache 0).1.inFlight
        = some initialCache.nextId :=
  ⟨⟨rfl, by decide, rfl⟩,
   ((getStatus_freshness (mkSpaClient "key") initialCache 0 rfl
      (by decide)).2.1 rfl).1,
   ((getStatus_freshness (mkSpaClient "key") initialCache 0 rfl
      (by decide)).2.1 rfl).2⟩

/-- Claim C3: a failure settlement of the in-flight fetch leaves
lastStatus and lastFetchTime exactly as they were, only clears inFlight,
issues no retry request, and delivers the failure itself, unmodified, to
the waiters of that fetch. -/
theorem fetch_failure_atomic (st : CacheState) (t : Int)
    (e : RequestError) (fid : Nat) (h : st.inFlight = some fid) :
    settleStep st t (.failure e)
      = ({ st with inFlight := none }, some (fid, .failure e), [])
    ∧ (settleStep st t (.failure e)).1.lastStatus = st.lastStatus
    ∧ (settleStep st t (.failure e)).1.lastFetchTime = st.lastFetchTime
    ∧ deliver [(fid, .failure e)] (.awaiting fid) = some (.failure e) := by
  refine ⟨by simp [settleStep, h], by simp [settleStep, h],
    by simp [settleStep, h], ?_⟩
  simp [deliver]

theorem fetch_failure_atomic_witness :
    ((⟨some (.obj sampleStatus), 4, some 2, 3⟩ : CacheState).inFlight
        = some 2)
    ∧ settleStep ⟨some (.obj sampleStatus), 4, some 2, 3⟩ 9
        (.failure .timeoutAbort)
      = (⟨some (.obj sampleStatus), 4, none, 3⟩,
         some (2, .failure .timeoutAbort), []) :=
  ⟨rfl,
   (fetch_failure_atomic ⟨some (.obj sampleStatus), 4, some 2, 3⟩ 9
      .timeoutAbort 2 rfl).1⟩

/-- Claim C4: every settlement of the in-flight fetch, success or
failure, clears inFlight in the same step that delivers the outcome
(the waiters observe the result only against the cleared state), issues
no request, and afterwards any getStatus call that does not hit the
freshness fast path starts a new fetch: it issues the GET and installs a
new in-flight ticket, so the coalescer is never stuck in Fetching. -/
theorem inflight_always_clears (c : SpaClient) (st : CacheState) (t : Int)
    (out : FetchOutcome) (fid : Nat) (h : st.inFlight = some fid) :
    (settleStep st t out).1.inFlight = none
    ∧ (settleStep st t out).2.1 = some (fid, out)
    ∧ (settleStep st t out).2.2 = []
    ∧ (∀ t2, freshB c (settleStep st t out).1 t2 = false →
        (getStatusStep c (settleStep st t out).1 t2).2.2 = [statusRequest]
        ∧ (getStatusStep c (settleStep st t out).1 t2).1.inFlight
            = some (settleStep st t out).1.nextId) := by
  have h1 : (settleStep st t out).1.inFlight = none := by
    cases out <;> simp [settleStep, h]
  refine ⟨h1, by cases out <;> simp [settleStep, h],
    by cases out <;> simp [settleStep, h], ?_⟩
  intro t2 hnf
  rw [getStatusStep_of_not_fresh c _ t2 hnf]
  simp [startOrJoin, h1, startFetch]

theorem inflight_always_clears_witness :
    ((⟨none, 0, some 5, 6⟩ : CacheState).inFlight = some 5
      ∧ freshB (mkSpaClient "key")
          (settleStep ⟨none, 0, some 5, 6⟩ 1 (.success .undef)).1 2
        = false)
    ∧ (settleStep ⟨none, 0, some 5, 6⟩ 1 (.success .undef)).1.inFlight
        = none
    ∧ (getStatusStep (mkSpaClient "key")
        (settleStep ⟨none, 0, some 5, 6⟩ 1 (.success .undef)).1 2).2.2
      = [statusRequest] :=
  ⟨⟨rfl, rfl⟩,
   (inflight_always_clears (mkSpaClient "key") ⟨none, 0, some 5, 6⟩ 1
      (.success .undef) 5 rfl).1,
   ((inflight_always_clears (mkSpaClient "key") ⟨none, 0, some 5, 6⟩ 1
      (.success .undef) 5 rfl).2.2.2 2 rfl).1⟩

/-- Claim C10: when GET /status settles successfully with a 204
response, requestJson resolves with the absent value undefined; the
settlement stores that absent value as lastStatus and delivers it to the
waiters; the stored value is falsy, so the freshness fast path can never
fire again whatever minIntervalMs is, and every later getStatus call
outside an in-flight fetch issues a new outbound GET. -/
theorem status204_never_fresh (c : SpaClient) (st : CacheState)
    (elapsed : Nat) (r : HttpResponse) (t t2 : Int) (fid : Nat)
    (hTime : elapsed < c.timeoutMs) (h204 : r.status = 204)
    (hIn : st.inFlight = some fid) :
    fetchOutcomeOf
        (requestJson c "GET" "/status" none (.responds elapsed r)).1
      = .success .undef
    ∧ (settleStep st t (.success .undef)).1.lastStatus = some .undef
    ∧ (settleStep st t (.success .undef)).2.1 = some (fid, .success .undef)
    ∧ freshB c (settleStep st t (.success .undef)).1 t2 = false
    ∧ (getStatusStep c (settleStep st t (.success .undef)).1 t2).2.2
        = [statusRequest] := by
  have hns1 : (settleStep st t (.success .undef)).1.lastStatus
      = some .undef := by
    simp [settleStep, hIn]
  have hns3 : (settleStep st t (.success .undef)).1.inFlight = none := by
    simp [settleStep, hIn]
  have hnf : freshB c (settleStep st t (.success .undef)).1 t2 = false := by
    rw [freshB_some c _ t2 .undef hns1]
    simp [StatusValue.truthy]
  refine ⟨?_, hns1, by simp [settleStep, hIn], hnf, ?_⟩
  · simp [requestJson, requestJsonCore, hTime, h204, resOk, fetchOutcomeOf]
  · rw [getStatusStep_of_not_fresh c _ t2 hnf]
    simp [startOrJoin, hns3, startFetch]

theorem status204_never_fresh_witness :
    ((0 : Nat) < (mkSpaClient "key").timeoutMs
      ∧ (204 : Nat) = 204
      ∧ (⟨some (.obj sampleStatus), 0, some 3, 4⟩ : CacheState).inFlight
          = some 3)
    ∧ fetchOutcomeOf
        (requestJson (mkSpaClient "key") "GET" "/status" none
          (.responds 0 ⟨204, "No Content", none, .error (), .error ()⟩)).1
      = .success .undef
    ∧ freshB (mkSpaClient "key")
        (settleStep ⟨some (.obj sampleStatus), 0, some 3, 4⟩ 1
          (.success .undef)).1 2
      = false
    ∧ (getStatusStep (mkSpaClient "key")
        (settleStep ⟨some (.obj sampleStatus), 0, some 3, 4⟩ 1
          (.success .undef)).1 2).2.2
      = [statusRequest] := by
  have h := status204_never_fresh (mkSpaClient "key")
    ⟨some (.obj sampleStatus), 0, some 3, 4⟩ 0
    ⟨204, "No Content", none, .error (), .error ()⟩ 1 2 3
    (by decide) rfl rfl
  exact ⟨⟨by decide, rfl, rfl⟩, h.1, h.2.2.2.1, h.2.2.2.2⟩

end ArcticSpa
